import Mathlib

/-!
Shallow embedding of the trading-signal core of the GenX-EA_Script
repository: the technical-indicator pipeline (`technical_analysis.py`),
the signal-fusion logic (`ml_model.py`), the volume-pattern detector
(`core/patterns/pattern_detector.py`) and the untrained-model behaviour
of the two ML predictor classes.  Machine floats are modelled as `ℚ`,
with IEEE NaN modelled as `Option.none`; fallible operations return
`Except`/`Option`.
-/

namespace GenX

/-- The three signal kinds used throughout the pipeline. -/
inductive SigKind where
  | BUY
  | SELL
  | HOLD
deriving DecidableEq, Repr

/-- Result of `MLTradingModel.combine_signals`: the final fused signal and
its confidence (the Python dict also echoes back its inputs, which we drop). -/
structure CombinedSignal where
  final_signal : SigKind
  final_confidence : ℚ
deriving DecidableEq, Repr

/-- `MLTradingModel.combine_signals` (ml_model.py).  Mirrors the three
branches: agreement, one-side-HOLD, disagreement. -/
def combine_signals (ta_signal : SigKind) (ta_confidence : ℚ)
    (ml_signal : SigKind) (ml_confidence : ℚ) : CombinedSignal :=
  if ta_signal = ml_signal then
    ⟨ta_signal, min ((ta_confidence + ml_confidence) / 2 + 1/10) 1⟩
  else if ta_signal = SigKind.HOLD ∨ ml_signal = SigKind.HOLD then
    ⟨if ta_signal ≠ SigKind.HOLD then ta_signal else ml_signal,
     max ta_confidence ml_confidence * (7/10)⟩
  else
    ⟨SigKind.HOLD, 3/10⟩

/-- One rule-based signal produced inside
`TechnicalAnalysis._generate_signals` (technical_analysis.py). -/
structure RuleSignal where
  type : SigKind
  reason : String
  strength : ℚ
deriving DecidableEq, Repr

/-- The summary dict returned by `TechnicalAnalysis._generate_signals`. -/
structure SignalSummary where
  overall_signal : SigKind
  confidence : ℚ
  individual_signals : List RuleSignal
  buy_count : ℕ
  sell_count : ℕ
deriving DecidableEq, Repr

/-- The vote-counting tail of `TechnicalAnalysis._generate_signals`:
count BUY against SELL votes, majority wins with confidence equal to the
mean strength of the winning bucket capped at 1.0, tie gives HOLD at 0.5. -/
def overallFromSignals (signals : List RuleSignal) : SignalSummary :=
  let buy_signals := signals.filter (fun s => s.type = SigKind.BUY)
  let sell_signals := signals.filter (fun s => s.type = SigKind.SELL)
  if sell_signals.length < buy_signals.length then
    ⟨SigKind.BUY,
     min ((buy_signals.map (fun s => s.strength)).sum / (buy_signals.length : ℚ)) 1,
     signals, buy_signals.length, sell_signals.length⟩
  else if buy_signals.length < sell_signals.length then
    ⟨SigKind.SELL,
     min ((sell_signals.map (fun s => s.strength)).sum / (sell_signals.length : ℚ)) 1,
     signals, buy_signals.length, sell_signals.length⟩
  else
    ⟨SigKind.HOLD, 1/2, signals, buy_signals.length, sell_signals.length⟩

/-- pandas `Series.rolling(window=n).mean()`: the value at index `i` is the
mean of the `n` entries ending at `i`, and NaN (`none`) while the window is
not yet filled. -/
def rollingMean (xs : List ℚ) (n : ℕ) : List (Option ℚ) :=
  (List.range xs.length).map (fun i =>
    if i + 1 < n then none
    else some (((xs.drop (i + 1 - n)).take n).sum / (n : ℚ)))

/-- pandas `Series.diff()` restricted to the defined entries: the list of
consecutive differences `xs[i] - xs[i-1]` for `i ≥ 1`. -/
def deltas : List ℚ → List ℚ
  | [] => []
  | [_] => []
  | a :: b :: rest => (b - a) :: deltas (b :: rest)

/-- `delta.where(delta > 0, 0)` in `calculate_rsi`: positive differences,
others (including the leading NaN of `diff`, which compares false) become 0. -/
def gains (prices : List ℚ) : List ℚ :=
  match prices with
  | [] => []
  | _ :: _ => 0 :: (deltas prices).map (fun d => if 0 < d then d else 0)

/-- `(-delta.where(delta < 0, 0))` in `calculate_rsi`: magnitudes of the
negative differences, others become 0. -/
def losses (prices : List ℚ) : List ℚ :=
  match prices with
  | [] => []
  | _ :: _ => 0 :: (deltas prices).map (fun d => if d < 0 then -d else 0)

/-- The float arithmetic `100 - 100/(1 + gain/loss)` of `calculate_rsi` on
one index, with IEEE semantics made explicit: `loss > 0` gives the finite
formula, `loss = 0 < gain` gives `rs = +inf` hence RSI `= 100`, and
`0/0` gives NaN (`none`). -/
def rsiPoint : Option ℚ → Option ℚ → Option ℚ
  | some g, some l =>
      if 0 < l then some (100 - 100 / (1 + g / l))
      else if 0 < g then some 100
      else none
  | _, _ => none

/-- `TechnicalAnalysis.calculate_rsi` (technical_analysis.py): rolling mean
of gains over rolling mean of losses, folded into `100 - 100/(1+rs)`. -/
def rsiList (prices : List ℚ) (period : ℕ) : List (Option ℚ) :=
  List.zipWith rsiPoint
    (rollingMean (gains prices) period)
    (rollingMean (losses prices) period)

/-- Recursion for pandas `Series.ewm(span).mean()` (default `adjust=True`):
carries the weighted numerator and the weight sum. -/
def ewmAux (a : ℚ) : ℚ → ℚ → List ℚ → List ℚ
  | _, _, [] => []
  | num, den, x :: xs =>
      (((1 - a) * num + x) / ((1 - a) * den + 1)) ::
        ewmAux a ((1 - a) * num + x) ((1 - a) * den + 1) xs

/-- pandas `Series.ewm(span=s).mean()` with `adjust=True`:
`y_t = Σ (1-α)^i x_(t-i) / Σ (1-α)^i` where `α = 2/(s+1)`. -/
def ewmMean (xs : List ℚ) (span : ℕ) : List ℚ :=
  ewmAux (2 / ((span : ℚ) + 1)) 0 0 xs

/-- The dict returned by `TechnicalAnalysis.calculate_macd`. -/
structure MACDResult where
  macd : List ℚ
  signalLine : List ℚ
  histogram : List ℚ
deriving Repr

/-- `TechnicalAnalysis.calculate_macd` (technical_analysis.py):
MACD line = fast EMA − slow EMA, signal line = EMA of the MACD line,
histogram = MACD line − signal line. -/
def calculate_macd (prices : List ℚ) (fast slow sp : ℕ) : MACDResult :=
  let ema_fast := ewmMean prices fast
  let ema_slow := ewmMean prices slow
  let macd_line := List.zipWith (fun a b => a - b) ema_fast ema_slow
  let signal_line := ewmMean macd_line sp
  ⟨macd_line, signal_line, List.zipWith (fun a b => a - b) macd_line signal_line⟩

/-- The dict returned by `TechnicalAnalysis.calculate_moving_averages`. -/
structure MAResult where
  ma_short : List (Option ℚ)
  ma_long : List (Option ℚ)
deriving Repr

/-- `TechnicalAnalysis.calculate_moving_averages` (technical_analysis.py). -/
def calculate_moving_averages (prices : List ℚ) (short lng : ℕ) : MAResult :=
  ⟨rollingMean prices short, rollingMean prices lng⟩

/-- pandas `Series.rolling(window=n).std()` (sample standard deviation,
`ddof=1`), with the square root left abstract as `sqrtFn` since `ℚ` is not
closed under it; NaN (`none`) while the window is not filled. -/
def rollingStd (sqrtFn : ℚ → ℚ) (xs : List ℚ) (n : ℕ) : List (Option ℚ) :=
  (List.range xs.length).map (fun i =>
    if i + 1 < n then none
    else
      let w := (xs.drop (i + 1 - n)).take n
      let m := w.sum / (n : ℚ)
      some (sqrtFn ((w.map (fun x => (x - m) ^ 2)).sum / ((n : ℚ) - 1))))

/-- The dict returned by `TechnicalAnalysis.calculate_bollinger_bands`. -/
structure BBResult where
  upper : List (Option ℚ)
  middle : List (Option ℚ)
  lower : List (Option ℚ)
deriving Repr

/-- `TechnicalAnalysis.calculate_bollinger_bands` (technical_analysis.py):
middle = SMA, upper/lower = middle ± std_dev · rolling std. -/
def calculate_bollinger_bands (sqrtFn : ℚ → ℚ) (prices : List ℚ)
    (period : ℕ) (std_dev : ℚ) : BBResult :=
  let middle := rollingMean prices period
  let std := rollingStd sqrtFn prices period
  ⟨List.zipWith (fun m? s? => Option.bind m? (fun m => s?.map (fun s => m + s * std_dev))) middle std,
   middle,
   List.zipWith (fun m? s? => Option.bind m? (fun m => s?.map (fun s => m - s * std_dev))) middle std⟩

/-- One OHLCV price bar (a row of the pandas DataFrame); the timestamp is
the position in the list. -/
structure Bar where
  opn : ℚ
  high : ℚ
  low : ℚ
  close : ℚ
  volume : ℚ
deriving DecidableEq, Repr

/-- The dict returned by `TechnicalAnalysis.calculate_support_resistance`. -/
structure SRLevels where
  support : ℚ
  resistance : ℚ
  pivot : ℚ
deriving DecidableEq, Repr

/-- `TechnicalAnalysis.calculate_support_resistance` (technical_analysis.py):
min low / max high over the last `window` bars, pivot from the last bar.
`min`/`max` of an empty tail raise in Python and the `except` block yields
all zeroes, modelled by the `[]` case. -/
def calculate_support_resistance (data : List Bar) (window : ℕ) : SRLevels :=
  let recent := data.drop (data.length - window)
  match recent.getLast? with
  | none => ⟨0, 0, 0⟩
  | some lastBar =>
      ⟨(recent.map (fun b => b.low)).foldr min lastBar.low,
       (recent.map (fun b => b.high)).foldr max lastBar.high,
       (lastBar.high + lastBar.low + lastBar.close) / 3⟩

/-- IEEE comparison `b < a` where `a` may be NaN: any comparison against
NaN is false. -/
def nanLT (b : ℚ) (a : Option ℚ) : Bool :=
  match a with
  | some a => decide (b < a)
  | none => false

/-- `TechnicalAnalysis._generate_signals` (technical_analysis.py): build the
rule-based signal list from the latest RSI / MACD / moving-average readings
(NaN-able floats are `Option ℚ`; comparisons against NaN are false), then
aggregate with `overallFromSignals`. -/
def generate_signals (rsi : Option ℚ) (macd sig : ℚ)
    (ma_short ma_long : Option ℚ) (price : ℚ) : SignalSummary :=
  let rsiSignals : List RuleSignal :=
    if nanLT 70 rsi then [⟨SigKind.SELL, "RSI overbought", 7/10⟩]
    else if rsi.any (fun r => r < 30) then [⟨SigKind.BUY, "RSI oversold", 7/10⟩]
    else []
  let macdSignals : List RuleSignal :=
    if sig < macd ∧ 0 < macd then [⟨SigKind.BUY, "MACD bullish crossover", 6/10⟩]
    else if macd < sig ∧ macd < 0 then [⟨SigKind.SELL, "MACD bearish crossover", 6/10⟩]
    else []
  let maSignals : List RuleSignal :=
    match ma_short, ma_long with
    | some s, some l =>
        if s < price ∧ l < s then [⟨SigKind.BUY, "Price above both MAs", 1/2⟩]
        else if price < s ∧ s < l then [⟨SigKind.SELL, "Price below both MAs", 1/2⟩]
        else []
    | _, _ => []
  overallFromSignals (rsiSignals ++ macdSignals ++ maSignals)

/-- `series.iloc[-1] if not series.empty else default` for a NaN-able
series: the last value (possibly NaN) when the series is non-empty, else
the (defined) default. -/
def lastOr (l : List (Option ℚ)) (d : ℚ) : Option ℚ :=
  match l.getLast? with
  | some v => v
  | none => some d

/-- The analysis dict returned by `TechnicalAnalysis.analyze_stock`
(NaN-able float entries are `Option ℚ`). -/
structure Analysis where
  current_price : ℚ
  price_change : ℚ
  volume_ratio : ℚ
  rsi : Option ℚ
  macd_latest : ℚ
  signal_latest : ℚ
  histogram_latest : ℚ
  ma_short_latest : Option ℚ
  ma_long_latest : Option ℚ
  price_vs_ma_short : Option ℚ
  price_vs_ma_long : Option ℚ
  bb_upper : Option ℚ
  bb_middle : Option ℚ
  bb_lower : Option ℚ
  support_resistance : SRLevels
  signals : SignalSummary
deriving Repr

/-- `TechnicalAnalysis.analyze_stock` (technical_analysis.py): fewer than 50
bars gives the empty dict (`none`); otherwise every indicator is computed
and the latest readings are assembled.  Config constants: RSI 14, MACD
12/26/9, MA 20/50, Bollinger 20/2.  An exception anywhere (e.g. an empty
frame reaching `iloc[-1]`) is caught and also yields the empty dict. -/
def analyze_stock (sqrtFn : ℚ → ℚ) (data : List Bar) : Option Analysis :=
  if data.length < 50 then none
  else
    match data.getLast? with
    | none => none
    | some lastBar =>
      let closes := data.map (fun b => b.close)
      let latest_close := lastBar.close
      let rsi := rsiList closes 14
      let macdRes := calculate_macd closes 12 26 9
      let ma := calculate_moving_averages closes 20 50
      let bb := calculate_bollinger_bands sqrtFn closes 20 2
      let sr := calculate_support_resistance data 20
      let latest_rsi := lastOr rsi 50
      let latest_macd := (macdRes.macd.getLast?).getD 0
      let latest_signal := (macdRes.signalLine.getLast?).getD 0
      let latest_histogram := (macdRes.histogram.getLast?).getD 0
      let latest_ma_short := lastOr ma.ma_short latest_close
      let latest_ma_long := lastOr ma.ma_long latest_close
      let price_change :=
        match closes.get? (closes.length - 2) with
        | some prev => if 1 < closes.length then (latest_close - prev) / prev * 100 else 0
        | none => 0
      let avg_volume := lastOr (rollingMean (data.map (fun b => b.volume)) 20) 0
      let volume_ratio :=
        match avg_volume with
        | some a => if 0 < a then lastBar.volume / a else 1
        | none => 1
      some
        { current_price := latest_close
          price_change := price_change
          volume_ratio := volume_ratio
          rsi := latest_rsi
          macd_latest := latest_macd
          signal_latest := latest_signal
          histogram_latest := latest_histogram
          ma_short_latest := latest_ma_short
          ma_long_latest := latest_ma_long
          price_vs_ma_short := latest_ma_short.map (fun m => (latest_close - m) / m * 100)
          price_vs_ma_long := latest_ma_long.map (fun m => (latest_close - m) / m * 100)
          bb_upper := lastOr bb.upper latest_close
          bb_middle := lastOr bb.middle latest_close
          bb_lower := lastOr bb.lower latest_close
          support_resistance := sr
          signals := generate_signals latest_rsi latest_macd latest_signal
            latest_ma_short latest_ma_long latest_close }

/-- Direction tag of a `PatternEvent`. -/
inductive Direction where
  | bullish
  | bearish
  | neutral
deriving DecidableEq, Repr

/-- One pattern event emitted by `PatternDetector`
(core/patterns/pattern_detector.py); `idx` is the positional index standing
for `data.index[i]`. -/
structure PatternEvent where
  ptype : String
  idx : ℕ
  strength : ℚ
  direction : Direction
deriving DecidableEq, Repr

/-- `PatternDetector._detect_volume_patterns`
(core/patterns/pattern_detector.py): with a volume column and at least 20
bars, scan `for i in range(len(data) - 1)` and emit a `volume_spike` event
where `volume[i] > 2 * volume_ma[i]` (20-period SMA; a NaN average compares
false), with strength `volume[i] / volume_ma[i]`. -/
def detect_volume_patterns (data : List Bar) : List PatternEvent :=
  if 20 ≤ data.length then
    let vols := data.map (fun b => b.volume)
    let volMA := rollingMean vols 20
    (List.range (data.length - 1)).filterMap (fun i =>
      match vols[i]?, volMA[i]? with
      | some v, some (some m) =>
          if 2 * m < v then some ⟨"volume_spike", i, v / m, Direction.neutral⟩
          else none
      | _, _ => none)
  else []

/-- The prediction dict returned by `MLTradingModel.predict_signal`. -/
structure MLPrediction where
  predicted_signal : SigKind
  confidence : ℚ
  ml_probability : List ℚ
deriving DecidableEq, Repr

/-- The mutable state of `MLTradingModel` (ml_model.py) that the claims
depend on: the `is_trained` flag (`False` at construction). -/
structure MLModelState where
  is_trained : Bool
deriving DecidableEq, Repr

/-- `MLTradingModel.__init__`: the model starts untrained. -/
def MLModelState.init : MLModelState := ⟨false⟩

/-- `MLTradingModel.predict_signal` (ml_model.py): an untrained model
returns the fixed prediction HOLD at confidence 0.5 with probabilities
[0.33, 0.33, 0.34]; a trained model returns the RandomForest output, which
this embedding abstracts as the argument `trainedPrediction`. -/
def predict_signal (m : MLModelState) (trainedPrediction : MLPrediction) : MLPrediction :=
  if m.is_trained then trainedPrediction
  else ⟨SigKind.HOLD, 1/2, [33/100, 33/100, 34/100]⟩

/-- `MLTradingModel.train_model` (ml_model.py): with empty training data it
reports failure and leaves the state unchanged; with non-empty data the
RandomForest fit (abstracted away) succeeds and sets `is_trained`.
Training data is the list of (feature vector, label) samples. -/
def train_model (m : MLModelState) (trainingData : List (List ℚ × ℕ)) :
    MLModelState × Bool :=
  if trainingData.isEmpty then (m, false)
  else ({ m with is_trained := true }, true)

/-- `np.max(probabilities)` in `MLTradingModel.predict_signal`: the
confidence is the maximum class probability (`predict_proba` rows are
non-empty; the empty case is sent to 0). -/
def max_probability (probs : List ℚ) : ℚ :=
  probs.foldl max 0

/-- `MarketPredictor.predict` (ai_models/market_predictor.py): raises
`ValueError("Model not trained yet")` when the model is untrained, else
returns the model output (predictions and class probabilities, abstracted
as the argument). -/
def MarketPredictor.predict (is_trained : Bool)
    (modelOutput : List ℕ × List (List ℚ)) :
    Except String (List ℕ × List (List ℚ)) :=
  if is_trained then Except.ok modelOutput
  else Except.error "Model not trained yet"

/-! ## Theorems about the signal-fusion logic -/

/-- C1: when the technical and ML signal kinds agree, `combine_signals`
returns the common kind with confidence
`min((ta_confidence + ml_confidence)/2 + 0.1, 1.0)`. -/
theorem combine_signals_agreement (ta ml : SigKind) (a b : ℚ) (h : ta = ml) :
    combine_signals ta a ml b = ⟨ta, min ((a + b) / 2 + 1/10) 1⟩ := by
  simp [combine_signals, h]

/-- C1 witness: technical BUY 0.8 with ML BUY 0.9 fuses to BUY at 0.95. -/
theorem combine_signals_agreement_witness :
    combine_signals SigKind.BUY (8/10) SigKind.BUY (9/10) = ⟨SigKind.BUY, 19/20⟩ := by
  rw [combine_signals_agreement SigKind.BUY SigKind.BUY (8/10) (9/10) rfl]
  norm_num [min_def]

/-- C2 counterexample: with technical HOLD at confidence 0.9 and ML BUY at
confidence 0.5, the fused confidence is 0.9·0.7 = 0.63, not 0.7 times the
non-HOLD confidence 0.5 (which would be 0.35): the code discounts the
maximum of the two confidences, not the non-HOLD one. -/
theorem combine_signals_one_hold_counterexample :
    combine_signals SigKind.HOLD (9/10) SigKind.BUY (1/2) ≠
      ⟨SigKind.BUY, (7/10) * (1/2)⟩ := by
  simp +decide only [combine_signals, CombinedSignal.mk.injEq]
  norm_num [max_def]

/-- C2 amended: when exactly one of the two kinds is HOLD,
`combine_signals` returns the non-HOLD kind with confidence 0.7 times the
maximum of the two confidences. -/
theorem combine_signals_one_hold (ta ml : SigKind) (a b : ℚ)
    (h : (ta = SigKind.HOLD ∧ ml ≠ SigKind.HOLD) ∨
         (ta ≠ SigKind.HOLD ∧ ml = SigKind.HOLD)) :
    combine_signals ta a ml b =
      ⟨if ta = SigKind.HOLD then ml else ta, max a b * (7/10)⟩ := by
  rcases h with ⟨h1, h2⟩ | ⟨h1, h2⟩
  · subst h1
    simp [combine_signals, Ne.symm h2]
  · subst h2
    simp [combine_signals, h1]

/-- C2 witness: technical HOLD at 0.5 with ML BUY at 0.65 fuses to BUY at
0.455. -/
theorem combine_signals_one_hold_witness :
    combine_signals SigKind.HOLD (1/2) SigKind.BUY (65/100) =
      ⟨SigKind.BUY, 91/200⟩ := by
  rw [combine_signals_one_hold SigKind.HOLD SigKind.BUY (1/2) (65/100)
    (Or.inl ⟨rfl, by decide⟩)]
  norm_num [max_def]

/-- C10: when both kinds are HOLD, `combine_signals` takes the agreement
branch: HOLD with confidence `min((a + b)/2 + 0.1, 1.0)`, not the 0.7
discount of the `either is HOLD` rule. -/
theorem combine_signals_both_hold (a b : ℚ) :
    combine_signals SigKind.HOLD a SigKind.HOLD b =
      ⟨SigKind.HOLD, min ((a + b) / 2 + 1/10) 1⟩ := by
  simp [combine_signals]

/-- C3: the vote aggregation of `_generate_signals`: a strict majority of
BUY (resp. SELL) votes gives that kind with confidence the mean strength of
the winning bucket capped at 1.0; equal counts (the empty list included)
give HOLD at confidence 0.5. -/
theorem overallFromSignals_majority (signals : List RuleSignal) :
    (signals.countP (fun s => s.type = SigKind.SELL) <
        signals.countP (fun s => s.type = SigKind.BUY) →
      overallFromSignals signals = ⟨SigKind.BUY,
        min (((signals.filter (fun s => s.type = SigKind.BUY)).map
            (fun s => s.strength)).sum /
          ((signals.filter (fun s => s.type = SigKind.BUY)).length : ℚ)) 1,
        signals,
        (signals.filter (fun s => s.type = SigKind.BUY)).length,
        (signals.filter (fun s => s.type = SigKind.SELL)).length⟩) ∧
    (signals.countP (fun s => s.type = SigKind.BUY) <
        signals.countP (fun s => s.type = SigKind.SELL) →
      overallFromSignals signals = ⟨SigKind.SELL,
        min (((signals.filter (fun s => s.type = SigKind.SELL)).map
            (fun s => s.strength)).sum /
          ((signals.filter (fun s => s.type = SigKind.SELL)).length : ℚ)) 1,
        signals,
        (signals.filter (fun s => s.type = SigKind.BUY)).length,
        (signals.filter (fun s => s.type = SigKind.SELL)).length⟩) ∧
    (signals.countP (fun s => s.type = SigKind.BUY) =
        signals.countP (fun s => s.type = SigKind.SELL) →
      overallFromSignals signals = ⟨SigKind.HOLD, 1/2, signals,
        (signals.filter (fun s => s.type = SigKind.BUY)).length,
        (signals.filter (fun s => s.type = SigKind.SELL)).length⟩) := by
  have hb := List.countP_eq_length_filter (fun s : RuleSignal => decide (s.type = SigKind.BUY)) signals
  have hs := List.countP_eq_length_filter (fun s : RuleSignal => decide (s.type = SigKind.SELL)) signals
  refine ⟨fun h => ?_, fun h => ?_, fun h => ?_⟩ <;>
    rw [hb, hs] at h <;>
    unfold overallFromSignals <;>
    dsimp only <;>
    split_ifs <;>
    first
      | rfl
      | omega

/-- C3 witness: a single BUY vote wins (confidence its strength), and the
empty signal list gives the neutral HOLD at 0.5 without error. -/
theorem overallFromSignals_majority_witness :
    (overallFromSignals [⟨SigKind.BUY, "RSI oversold", 7/10⟩]).overall_signal =
      SigKind.BUY ∧
    (overallFromSignals ([] : List RuleSignal)).confidence = 1/2 := by
  constructor
  · rw [(overallFromSignals_majority [⟨SigKind.BUY, "RSI oversold", 7/10⟩]).1 (by decide)]
  · rw [(overallFromSignals_majority []).2.2 rfl]

/-! ## Theorems about the ML predictor states -/

/-- C4 counterexample: `MarketPredictor.predict` on an untrained model does
not return a neutral HOLD prediction; it raises
`ValueError("Model not trained yet")`. -/
theorem untrained_predict_counterexample :
    MarketPredictor.predict false ([], []) =
      Except.error "Model not trained yet" := rfl

/-- C4 amended: `MLTradingModel.predict_signal` on an untrained model never
errors and returns the fixed neutral HOLD prediction at confidence 0.5, and
`is_trained` stays false until `train_model` succeeds on non-empty data —
while `MarketPredictor.predict` raises on an untrained model. -/
theorem untrained_predict_neutral (m : MLModelState) (p : MLPrediction)
    (td : List (List ℚ × ℕ)) :
    (m.is_trained = false →
      predict_signal m p = ⟨SigKind.HOLD, 1/2, [33/100, 33/100, 34/100]⟩) ∧
    MLModelState.init.is_trained = false ∧
    (td = [] → train_model m td = (m, false)) ∧
    (td ≠ [] →
      (train_model m td).1.is_trained = true ∧ (train_model m td).2 = true) ∧
    (∀ out, MarketPredictor.predict false out =
      Except.error "Model not trained yet") := by
  refine ⟨fun h => ?_, rfl, fun h => ?_, fun h => ?_, fun out => rfl⟩
  · simp [predict_signal, h]
  · simp [train_model, h]
  · simp [train_model, h]

/-- C4 witness: the freshly constructed model predicts HOLD at 0.5, and a
train call on one sample marks it trained. -/
theorem untrained_predict_neutral_witness :
    predict_signal MLModelState.init ⟨SigKind.BUY, 1, [0, 1, 0]⟩ =
      ⟨SigKind.HOLD, 1/2, [33/100, 33/100, 34/100]⟩ ∧
    (train_model MLModelState.init [([1], 1)]).1.is_trained = true := by
  constructor
  · exact (untrained_predict_neutral MLModelState.init
      ⟨SigKind.BUY, 1, [0, 1, 0]⟩ []).1 rfl
  · exact ((untrained_predict_neutral MLModelState.init
      ⟨SigKind.BUY, 1, [0, 1, 0]⟩ [([1], 1)]).2.2.2.1 (by simp)).1

/-! ## Confidence-range invariant -/

/-- The mapped strengths of any filtered sub-list of the signals sum to a
non-negative value when each strength is non-negative. -/
theorem strengths_sum_nonneg (signals : List RuleSignal) (p : RuleSignal → Bool)
    (hs : ∀ s ∈ signals, 0 ≤ s.strength) :
    0 ≤ ((signals.filter p).map (fun s => s.strength)).sum := by
  apply List.sum_nonneg
  intro x hx
  obtain ⟨s, hsMem, rfl⟩ := List.mem_map.1 hx
  exact hs s (List.mem_of_mem_filter hsMem)

/-- `foldl max` keeps an upper bound shared by the seed and the entries. -/
theorem foldl_max_le (l : List ℚ) (b c : ℚ) (hb : b ≤ c)
    (h : ∀ x ∈ l, x ≤ c) : l.foldl max b ≤ c := by
  induction l generalizing b with
  | nil => exact hb
  | cons x xs ih =>
      exact ih (max b x)
        (max_le hb (h x (List.mem_cons_self x xs)))
        (fun y hy => h y (List.mem_cons_of_mem x hy))

/-- `foldl max` is at least its seed. -/
theorem le_foldl_max (l : List ℚ) (b : ℚ) : b ≤ l.foldl max b := by
  induction l generalizing b with
  | nil => exact le_refl b
  | cons x xs ih => exact le_trans (le_max_left b x) (ih (max b x))

/-- C7: each confidence computed by the pipeline lies in [0,1]: every
branch of `combine_signals` (inputs in [0,1]), the vote aggregation of
`_generate_signals` (strengths in [0,1]), and the ML confidence
`np.max(predict_proba)` (probabilities in [0,1]). -/
theorem confidence_in_unit_interval (ta ml : SigKind) (a b : ℚ)
    (signals : List RuleSignal) (probs : List ℚ)
    (ha : 0 ≤ a ∧ a ≤ 1) (hb : 0 ≤ b ∧ b ≤ 1)
    (hs : ∀ s ∈ signals, 0 ≤ s.strength ∧ s.strength ≤ 1)
    (hp : ∀ p ∈ probs, 0 ≤ p ∧ p ≤ 1) :
    (0 ≤ (combine_signals ta a ml b).final_confidence ∧
      (combine_signals ta a ml b).final_confidence ≤ 1) ∧
    (0 ≤ (overallFromSignals signals).confidence ∧
      (overallFromSignals signals).confidence ≤ 1) ∧
    (0 ≤ max_probability probs ∧ max_probability probs ≤ 1) := by
  refine ⟨?_, ?_, ?_⟩
  · unfold combine_signals
    have h1 : 0 ≤ max a b := le_trans ha.1 (le_max_left a b)
    have h2 : max a b ≤ 1 := max_le ha.2 hb.2
    have hmul0 : (0:ℚ) ≤ max a b * (7/10) := mul_nonneg h1 (by norm_num)
    have hmul1 : max a b * (7/10) ≤ 1 :=
      le_trans (mul_le_mul_of_nonneg_right h2 (by norm_num)) (by norm_num)
    split_ifs
    · exact ⟨le_min (by linarith [ha.1, hb.1]) (by norm_num), min_le_right _ _⟩
    · exact ⟨hmul0, hmul1⟩
    · exact ⟨hmul0, hmul1⟩
    · exact ⟨show (0:ℚ) ≤ 3/10 by norm_num, show (3:ℚ)/10 ≤ 1 by norm_num⟩
  · unfold overallFromSignals
    dsimp only
    split_ifs
    · have hsum := strengths_sum_nonneg signals
        (fun s => decide (s.type = SigKind.BUY)) (fun s h => (hs s h).1)
      have hlen : (0 : ℚ) ≤
          ((signals.filter (fun s => s.type = SigKind.BUY)).length : ℚ) :=
        Nat.cast_nonneg _
      exact ⟨le_min (div_nonneg hsum hlen) (by norm_num), min_le_right _ _⟩
    · have hsum := strengths_sum_nonneg signals
        (fun s => decide (s.type = SigKind.SELL)) (fun s h => (hs s h).1)
      have hlen : (0 : ℚ) ≤
          ((signals.filter (fun s => s.type = SigKind.SELL)).length : ℚ) :=
        Nat.cast_nonneg _
      exact ⟨le_min (div_nonneg hsum hlen) (by norm_num), min_le_right _ _⟩
    · norm_num
  · exact ⟨le_foldl_max probs 0,
      foldl_max_le probs 0 1 (by norm_num) (fun x hx => (hp x hx).2)⟩

/-- C7 witness: concrete disagreement fusion, empty vote list and a
two-class probability vector all stay inside [0,1]. -/
theorem confidence_in_unit_interval_witness :
    ((0 ≤ (combine_signals SigKind.BUY (7/10) SigKind.SELL (6/10)).final_confidence ∧
      (combine_signals SigKind.BUY (7/10) SigKind.SELL (6/10)).final_confidence ≤ 1) ∧
    (0 ≤ (overallFromSignals []).confidence ∧
      (overallFromSignals []).confidence ≤ 1) ∧
    (0 ≤ max_probability [1/2, 1/2] ∧ max_probability [1/2, 1/2] ≤ 1)) :=
  confidence_in_unit_interval SigKind.BUY SigKind.SELL (7/10) (6/10) [] [1/2, 1/2]
    (by norm_num) (by norm_num) (by simp) (by norm_num)

/-! ## MACD histogram identity -/

/-- C8: wherever the MACD line and the signal line are both defined, the
histogram is exactly their difference, and the signal line is the EMA of
the MACD line over the signal period. -/
theorem macd_histogram_diff (prices : List ℚ) (fast slow sp i : ℕ) (m s : ℚ)
    (hm : (calculate_macd prices fast slow sp).macd[i]? = some m)
    (hs : (calculate_macd prices fast slow sp).signalLine[i]? = some s) :
    (calculate_macd prices fast slow sp).signalLine =
      ewmMean (calculate_macd prices fast slow sp).macd sp ∧
    (calculate_macd prices fast slow sp).histogram[i]? = some (m - s) := by
  refine ⟨rfl, ?_⟩
  unfold calculate_macd at hm hs ⊢
  dsimp only at hm hs ⊢
  rw [List.getElem?_zipWith', hm, hs]
  rfl

/-- C8 witness: on the prices [1, 2] with periods 1/2/1, the histogram at
index 1 equals MACD minus signal there. -/
theorem macd_histogram_diff_witness :
    (calculate_macd [1, 2] 1 2 1).histogram[1]? = some ((1/4) - (1/4)) :=
  (macd_histogram_diff [1, 2] 1 2 1 1 (1/4) (1/4)
    (by norm_num [calculate_macd, ewmMean, ewmAux])
    (by norm_num [calculate_macd, ewmMean, ewmAux])).2

/-! ## Volume-spike detector -/

/-- 20 bars whose volumes are 19 ones followed by a spike of 100 on the
final bar. -/
def spikeEndBars : List Bar :=
  List.replicate 19 ⟨1, 1, 1, 1, 1⟩ ++ [⟨1, 1, 1, 1, 100⟩]

/-- C9 counterexample: on `spikeEndBars` the final bar's volume (100)
exceeds twice the 20-period average (119/20), yet the detector emits no
event: the loop `for i in range(len(data) - 1)` never visits the final
bar. -/
theorem volume_spike_counterexample :
    detect_volume_patterns spikeEndBars = [] ∧
    (rollingMean (spikeEndBars.map (fun b => b.volume)) 20)[19]? =
      some (some (119/20)) ∧
    (2 : ℚ) * (119/20) < 100 := by
  refine ⟨by decide, ?_, by norm_num⟩
  norm_num [rollingMean, spikeEndBars, List.replicate]

/-- C9 amended: for any bar sequence, the detector emits a `volume_spike`
event at exactly the indices strictly before the final bar (the last index
is never visited) where the 20-period rolling average volume is defined and
the volume exceeds twice it, with strength volume/average; sequences
shorter than 20 bars give no events. -/
theorem volume_spike_events (data : List Bar) (e : PatternEvent) :
    e ∈ detect_volume_patterns data ↔
      20 ≤ data.length ∧ e.idx < data.length - 1 ∧
      ∃ v m, (data.map (fun b => b.volume))[e.idx]? = some v ∧
        (rollingMean (data.map (fun b => b.volume)) 20)[e.idx]? = some (some m) ∧
        2 * m < v ∧
        e = ⟨"volume_spike", e.idx, v / m, Direction.neutral⟩ := by
  unfold detect_volume_patterns
  split_ifs with hlen
  · simp only [List.mem_filterMap, List.mem_range]
    constructor
    · rintro ⟨i, hi, hf⟩
      rcases hv : (data.map (fun b => b.volume))[i]? with _ | v
      · rw [hv] at hf
        simp at hf
      rcases hm : (rollingMean (data.map (fun b => b.volume)) 20)[i]? with _ | m?
      · rw [hv, hm] at hf
        simp at hf
      rcases m? with _ | m
      · rw [hv, hm] at hf
        simp at hf
      rw [hv, hm] at hf
      dsimp only at hf
      by_cases hlt : 2 * m < v
      · rw [if_pos hlt] at hf
        obtain rfl := Option.some.inj hf
        exact ⟨hlen, hi, v, m, hv, hm, hlt, rfl⟩
      · rw [if_neg hlt] at hf
        simp at hf
    · rintro ⟨-, hidx, v, m, hv, hm, hlt, he⟩
      refine ⟨e.idx, hidx, ?_⟩
      rw [hv, hm]
      dsimp only
      rw [if_pos hlt]
      exact congrArg some he.symm
  · simp only [List.not_mem_nil, false_iff, not_and]
    intro h
    exact absurd h hlen

/-! ## RSI bounds -/

/-- Closed form of one entry of `rollingMean`. -/
theorem rollingMean_getElem? (xs : List ℚ) (n i : ℕ) :
    (rollingMean xs n)[i]? =
      if i < xs.length then
        some (if i + 1 < n then none
              else some (((xs.drop (i + 1 - n)).take n).sum / (n : ℚ)))
      else none := by
  unfold rollingMean
  rcases Nat.lt_or_ge i xs.length with h | h
  · simp [h, List.getElem?_map, List.getElem?_range]
  · simp [List.getElem?_map, List.getElem?_range, Nat.not_lt.2 h,
      List.getElem?_eq_none, h]

/-- A defined rolling mean of a list of non-negative entries is
non-negative. -/
theorem rollingMean_nonneg (xs : List ℚ) (n i : ℕ) (v : ℚ)
    (hx : ∀ x ∈ xs, 0 ≤ x)
    (h : (rollingMean xs n)[i]? = some (some v)) : 0 ≤ v := by
  rw [rollingMean_getElem?] at h
  split_ifs at h with h1 h2
  · simp at h
  · obtain h' := Option.some.inj h
    obtain rfl := Option.some.inj h'
    refine div_nonneg (List.sum_nonneg ?_) (Nat.cast_nonneg n)
    intro x hmem
    exact hx x (List.mem_of_mem_drop (List.mem_of_mem_take hmem))

/-- Every entry of the gain series is non-negative. -/
theorem gains_nonneg (prices : List ℚ) : ∀ x ∈ gains prices, 0 ≤ x := by
  intro x hx
  match prices with
  | [] => simp [gains] at hx
  | a :: t =>
      rw [gains] at hx
      rcases List.mem_cons.1 hx with rfl | hx'
      · exact le_refl 0
      · obtain ⟨d, -, rfl⟩ := List.mem_map.1 hx'
        split_ifs with hd
        · exact le_of_lt hd
        · exact le_refl 0

/-- Every entry of the loss series is non-negative. -/
theorem losses_nonneg (prices : List ℚ) : ∀ x ∈ losses prices, 0 ≤ x := by
  intro x hx
  match prices with
  | [] => simp [losses] at hx
  | a :: t =>
      rw [losses] at hx
      rcases List.mem_cons.1 hx with rfl | hx'
      · exact le_refl 0
      · obtain ⟨d, -, rfl⟩ := List.mem_map.1 hx'
        split_ifs with hd
        · linarith
        · exact le_refl 0

/-- The pointwise RSI formula stays in [0,100] on non-negative averages. -/
theorem rsiPoint_bounds (g l v : ℚ) (hg : 0 ≤ g) (hl : 0 ≤ l)
    (h : rsiPoint (some g) (some l) = some v) : 0 ≤ v ∧ v ≤ 100 := by
  simp only [rsiPoint] at h
  split_ifs at h with h1 h2
  · obtain rfl := Option.some.inj h
    have hr : 0 ≤ g / l := div_nonneg hg hl
    have hd0 : 0 ≤ 100 / (1 + g / l) := div_nonneg (by norm_num) (by linarith)
    have hd1 : 100 / (1 + g / l) ≤ 100 := div_le_self (by norm_num) (by linarith)
    constructor <;> linarith
  · obtain rfl := Option.some.inj h
    norm_num

/-- C5 amended: every defined RSI value lies in [0,100]; where the rolling
average loss is zero and the rolling average gain is positive the RSI is
exactly 100; where both averages are zero the RSI is undefined (NaN), as
`rs = 0/0` propagates NaN. -/
theorem rsi_within_bounds (prices : List ℚ) (period : ℕ) :
    (∀ (i : ℕ) (v : ℚ), (rsiList prices period)[i]? = some (some v) →
      0 ≤ v ∧ v ≤ 100) ∧
    (∀ (i : ℕ) (g : ℚ),
      (rollingMean (losses prices) period)[i]? = some (some 0) →
      (rollingMean (gains prices) period)[i]? = some (some g) → 0 < g →
      (rsiList prices period)[i]? = some (some 100)) ∧
    (∀ i : ℕ, (rollingMean (losses prices) period)[i]? = some (some 0) →
      (rollingMean (gains prices) period)[i]? = some (some 0) →
      (rsiList prices period)[i]? = some (none : Option ℚ)) := by
  refine ⟨?_, ?_, ?_⟩
  · intro i v h
    unfold rsiList at h
    obtain ⟨g?, l?, hg, hl, hp⟩ := List.getElem?_zipWith_eq_some.1 h
    rcases g? with _ | g
    · simp [rsiPoint] at hp
    rcases l? with _ | l
    · simp [rsiPoint] at hp
    exact rsiPoint_bounds g l v
      (rollingMean_nonneg _ _ _ _ (gains_nonneg prices) hg)
      (rollingMean_nonneg _ _ _ _ (losses_nonneg prices) hl) hp
  · intro i g hl hg hgpos
    unfold rsiList
    refine List.getElem?_zipWith_eq_some.2 ⟨some g, some 0, hg, hl, ?_⟩
    simp [rsiPoint, hgpos]
  · intro i hl hg
    unfold rsiList
    exact List.getElem?_zipWith_eq_some.2
      ⟨some 0, some 0, hg, hl, by simp [rsiPoint]⟩

/-- A 16-bar price series that rises once and then stays flat: after the
initial move, a full 14-bar window contains neither gains nor losses. -/
def flatTailPrices : List ℚ :=
  [1, 2, 2, 2, 2, 2, 2, 2, 2, 2, 2, 2, 2, 2, 2, 2]

/-- C5 counterexample: `flatTailPrices` is non-constant, at index 15 the
rolling average loss is zero, yet the RSI value there is NaN (undefined),
not 100: the rolling average gain is zero too and `rs = 0/0` is NaN. -/
theorem rsi_zero_loss_counterexample :
    flatTailPrices[0]? = some 1 ∧ flatTailPrices[1]? = some 2 ∧
    (rollingMean (losses flatTailPrices) 14)[15]? = some (some 0) ∧
    (rsiList flatTailPrices 14)[15]? = some none := by
  refine ⟨rfl, rfl, ?_, ?_⟩
  · norm_num [rollingMean, losses, deltas, flatTailPrices]
  · norm_num [rsiList, rsiPoint, rollingMean, gains, losses, deltas,
      flatTailPrices]

/-- C5 witness: at index 13 of `flatTailPrices` the average loss is 0 and
the average gain is 1/14, so the RSI is 100 there. -/
theorem rsi_within_bounds_witness :
    (rsiList flatTailPrices 14)[13]? = some (some 100) := by
  apply (rsi_within_bounds flatTailPrices 14).2.1 13 (1/14)
  · norm_num [rollingMean, losses, deltas, flatTailPrices]
  · norm_num [rollingMean, gains, deltas, flatTailPrices]
  · norm_num

/-! ## Short input gives empty or undefined output -/

/-- On input shorter than the window, every entry of `rollingMean` is NaN. -/
theorem rollingMean_short (xs : List ℚ) (n : ℕ) (h : xs.length < n) :
    ∀ x ∈ rollingMean xs n, x = none := by
  intro x hx
  obtain ⟨i, hiR, hEq⟩ := List.mem_map.1 hx
  have hi : i < xs.length := List.mem_range.1 hiR
  rw [← hEq, if_pos (by omega)]

/-- `getElem?` version of `rollingMean_short`. -/
theorem rollingMean_short_getElem? (xs : List ℚ) (n i : ℕ) (x : Option ℚ)
    (hlen : xs.length < n) (h : (rollingMean xs n)[i]? = some x) : x = none := by
  rw [rollingMean_getElem?] at h
  split_ifs at h with h1 h2
  · exact (Option.some.inj h).symm
  · exact (h2 (by omega)).elim

/-- `deltas` drops exactly one entry. -/
theorem deltas_length (xs : List ℚ) : (deltas xs).length = xs.length - 1 := by
  match xs with
  | [] => rfl
  | [a] => rfl
  | a :: b :: rest =>
      have ih := deltas_length (b :: rest)
      simp only [deltas, List.length_cons] at ih ⊢
      omega

/-- The gain series is aligned with the price series. -/
theorem gains_length (prices : List ℚ) :
    (gains prices).length = prices.length := by
  match prices with
  | [] => rfl
  | a :: t =>
      simp only [gains, List.length_cons, List.length_map, deltas_length]
      omega

/-- The loss series is aligned with the price series. -/
theorem losses_length (prices : List ℚ) :
    (losses prices).length = prices.length := by
  match prices with
  | [] => rfl
  | a :: t =>
      simp only [losses, List.length_cons, List.length_map, deltas_length]
      omega

/-- `ewmAux` preserves the length of its input. -/
theorem ewmAux_length (a num den : ℚ) (xs : List ℚ) :
    (ewmAux a num den xs).length = xs.length := by
  induction xs generalizing num den with
  | nil => rfl
  | cons x t ih => simp [ewmAux, ih]

/-- `ewmMean` is total and aligned: no warm-up NaN window. -/
theorem ewmMean_length (xs : List ℚ) (span : ℕ) :
    (ewmMean xs span).length = xs.length := ewmAux_length _ _ _ _

/-- C6: fewer than 50 bars make `analyze_stock` return the empty result,
and each rolling-window indicator on an input shorter than its own lookback
period returns only undefined (NaN) values — the moving averages, the RSI
and all three Bollinger bands — while the EMA-based MACD is total with all
three outputs aligned to the input, so no indicator ever raises. -/
theorem short_input_gives_empty (sqrtFn : ℚ → ℚ) (data : List Bar)
    (prices : List ℚ) (p₁ p₂ p₃ : ℕ) (k : ℚ) :
    (data.length < 50 → analyze_stock sqrtFn data = none) ∧
    (prices.length < p₁ → ∀ x ∈ rollingMean prices p₁, x = none) ∧
    (prices.length < p₁ →
      ∀ (i : ℕ) (x : Option ℚ), (rsiList prices p₁)[i]? = some x → x = none) ∧
    (prices.length < p₁ →
      ∀ x ∈ (calculate_moving_averages prices p₁ p₂).ma_short, x = none) ∧
    (prices.length < p₂ →
      ∀ x ∈ (calculate_moving_averages prices p₁ p₂).ma_long, x = none) ∧
    (prices.length < p₁ →
      ∀ (i : ℕ) (x : Option ℚ),
        ((calculate_bollinger_bands sqrtFn prices p₁ k).upper[i]? = some x →
          x = none) ∧
        ((calculate_bollinger_bands sqrtFn prices p₁ k).middle[i]? = some x →
          x = none) ∧
        ((calculate_bollinger_bands sqrtFn prices p₁ k).lower[i]? = some x →
          x = none)) ∧
    ((calculate_macd prices p₁ p₂ p₃).macd.length = prices.length ∧
      (calculate_macd prices p₁ p₂ p₃).signalLine.length = prices.length ∧
      (calculate_macd prices p₁ p₂ p₃).histogram.length = prices.length) := by
  refine ⟨fun h => ?_, fun h => ?_, fun h i x hx => ?_, fun h => ?_, fun h => ?_,
    fun h i x => ⟨fun hx => ?_, fun hx => ?_, fun hx => ?_⟩, ?_, ?_, ?_⟩
  · simp [analyze_stock, h]
  · exact rollingMean_short prices p₁ h
  · obtain ⟨g?, l?, hg, -, hp⟩ := List.getElem?_zipWith_eq_some.1 hx
    have hgn : g? = none := rollingMean_short_getElem? _ _ _ _
      (by rw [gains_length]; exact h) hg
    subst hgn
    simp [rsiPoint] at hp
    exact hp.symm
  · exact rollingMean_short prices p₁ h
  · exact rollingMean_short prices p₂ h
  · obtain ⟨m?, s?, hm, -, hp⟩ := List.getElem?_zipWith_eq_some.1 hx
    have hmn : m? = none := rollingMean_short_getElem? _ _ _ _ h hm
    subst hmn
    simp at hp
    exact hp.symm
  · exact rollingMean_short_getElem? _ _ _ _ h hx
  · obtain ⟨m?, s?, hm, -, hp⟩ := List.getElem?_zipWith_eq_some.1 hx
    have hmn : m? = none := rollingMean_short_getElem? _ _ _ _ h hm
    subst hmn
    simp at hp
    exact hp.symm
  · simp [calculate_macd, List.length_zipWith, ewmMean_length]
  · simp [calculate_macd, List.length_zipWith, ewmMean_length]
  · simp [calculate_macd, List.length_zipWith, ewmMean_length]

/-- C6 witness: the empty bar list yields the empty analysis, and the
one-element price series is fully undefined for the window-2 indicators. -/
theorem short_input_gives_empty_witness :
    analyze_stock id ([] : List Bar) = none ∧
    (∀ x ∈ rollingMean [1] 2, x = none) ∧
    (∀ x ∈ (calculate_moving_averages [1] 2 3).ma_short, x = none) ∧
    (∀ x ∈ (calculate_moving_averages [1] 2 3).ma_long, x = none) := by
  refine ⟨?_, ?_, ?_, ?_⟩
  · exact (short_input_gives_empty id [] [1] 2 3 4 2).1 (by norm_num)
  · exact (short_input_gives_empty id [] [1] 2 3 4 2).2.1 (by norm_num)
  · exact (short_input_gives_empty id [] [1] 2 3 4 2).2.2.2.1 (by norm_num)
  · exact (short_input_gives_empty id [] [1] 2 3 4 2).2.2.2.2.1 (by norm_num)

end GenX
